import Mathlib

/-!
Verification development for the embedder / layers_new subset of marian-dev.

The C++ sources embedded here are:
  * `src/layers_new/neuralnet.h` — mask transform, `Linear`, `Dropout`,
    `LinearReluDropout` layers;
  * `src/embedder/embedder.h` — the `Embed` task (option preparation,
    replica assignment, per-batch extraction of embedding vectors).

Modelling conventions.  Tensor element values are exact rationals; an
element type tag (`Ty`) is carried alongside to model the precision
dispatch that the code performs.  Casting between precisions is modelled
as a change of the tag only (exact-arithmetic model: rounding behaviour
of the floating-point formats is outside the embedding).  Graph
operations that live outside the two source files (`marian::dot`,
`marian::affine`, `marian::cast`, `relu`, `dropout`,
`dropoutReluInplace`, `repeat`, `reshape`) are modelled from the
specification text, with randomness made explicit as a stream argument.
The global train/eval mode (`getMode()` in the source) is passed as an
explicit argument, following the specification's design note that the
mode is an explicit context value.
-/

/-- Element precision of a tensor (`marian::Type`), restricted to the
floating-point types the embedded code dispatches on, plus `float64`
standing for any other precision. -/
inductive Ty where
  | float16 : Ty
  | float32 : Ty
  | float64 : Ty
deriving DecidableEq

/-- `NumericLimits<float>(type).lowest`: the most negative finite value of
each element type (exact integers for the IEEE formats). -/
def lowestVal : Ty → ℚ
  | Ty.float16 => -65504
  | Ty.float32 => -(2 ^ 128 - 2 ^ 104)
  | Ty.float64 => -(2 ^ 1024 - 2 ^ 971)

/-- Printed name of an element type (`operator<<` on `marian::Type`). -/
def tyName : Ty → String
  | Ty.float16 => "float16"
  | Ty.float32 => "float32"
  | Ty.float64 => "float64"

/-- A tensor expression: element type, shape, and row-major flattened
data.  This is the value-level model of `marian::Expr`. -/
structure TExpr where
  dtype : Ty
  shape : List Nat
  data : List ℚ
deriving DecidableEq

/-- `Shape::operator[]` with negative indexing from the end
(`shape()[-1]` is the last dimension).  Out-of-range access aborts in the
source; the model returns 0 there. -/
def shapeDim (s : List Nat) (i : Int) : Nat :=
  if 0 ≤ i then s.getD i.toNat 0 else s.getD (s.length - (-i).toNat) 0

/-- `marian::reshape`: same data, new shape. -/
def reshapeExpr (x : TExpr) (s : List Nat) : TExpr :=
  { x with shape := s }

/-- Modelled from the spec: `marian::cast(a, type)` converts an
expression to the given element precision.  In the exact-arithmetic model
only the precision tag changes. -/
def castExpr (x : TExpr) (t : Ty) : TExpr :=
  { x with dtype := t }

/-- Modelled from the spec: `relu`, elementwise `max(v, 0)`. -/
def reluOp (x : TExpr) : TExpr :=
  { x with data := x.data.map (fun v => max v 0) }

/-- Fuel-indexed worker for `repeatBlocks`; the fuel is the list length,
and each step consumes at least one element. -/
def repeatBlocksAux (s h : Nat) : Nat → List ℚ → List ℚ
  | 0, _ => []
  | _, [] => []
  | fuel + 1, a :: l =>
      (List.replicate h (a :: l.take (s - 1))).flatten ++
        repeatBlocksAux s h fuel (l.drop (s - 1))

/-- Modelled from the spec: `repeat(a, n, axis)` along axis `-3` of a
tensor of shape `[batch, 1, 1, srcWords]` concatenates `n` copies along
that axis; in row-major data this replicates each contiguous block of
`srcWords` elements `n` times. -/
def repeatBlocks (s h : Nat) (l : List ℚ) : List ℚ :=
  repeatBlocksAux s h l.length l

/-- `maskFactor` of `transposedLogMask`:
`std::max(NumericLimits<float>(type).lowest / 2.f, -99999999.f)`.
The C++ literal `-99999999.f` denotes the binary32 value `-1.0e8`: the
spacing of binary32 at magnitude `1e8` is 8, and 99999999 rounds to
100000000 (distance 1) rather than 99999992 (distance 7). -/
def maskFactorVal (t : Ty) : ℚ :=
  max (lowestVal t / 2) (-100000000)

/-- `transposedLogMask(mask, dimHeads)` from `layers_new/neuralnet.h`:
null mask passes through as null; otherwise the multiplicative mask is
reshaped, turned into the additive log mask `(1 - mask) * maskFactor`,
repeated over the heads, and reshaped again. -/
def transposedLogMask (mask : Option TExpr) (dimHeads : Nat) : Option TExpr :=
  match mask with
  | none => none
  | some m0 =>
    let dimBatch := shapeDim m0.shape (-3)
    let dimSrcWords := shapeDim m0.shape (-2)
    let m := reshapeExpr m0 [dimBatch, 1, 1, dimSrcWords]
    let maskFactor := maskFactorVal m.dtype
    let logMask : TExpr := { m with data := m.data.map (fun v => (1 - v) * maskFactor) }
    let repeated : TExpr :=
      { logMask with
        shape := [dimBatch, dimHeads, 1, dimSrcWords],
        data := repeatBlocks dimSrcWords dimHeads logMask.data }
    some (reshapeExpr repeated [1, dimBatch * dimHeads, 1, dimSrcWords])

/-- Global train/eval mode (`getMode()` in the source), passed
explicitly per the specification's design note. -/
inductive Mode where
  | train : Mode
  | eval : Mode
deriving DecidableEq

/-- Fuel-indexed worker for `listChunks`. -/
def listChunksAux (s : Nat) : Nat → List ℚ → List (List ℚ)
  | 0, _ => []
  | _, [] => []
  | fuel + 1, a :: l =>
      (a :: l.take (s - 1)) :: listChunksAux s fuel (l.drop (s - 1))

/-- Split row-major data into rows of length `s` (the last-dimension
stride); used to give semantics to the matrix product over the last
axis. -/
def listChunks (s : Nat) (l : List ℚ) : List (List ℚ) :=
  listChunksAux s l.length l

/-- Entry `(i, j)` of the weight matrix `W`, row-major, under the
`transB` flag of `dot`/`affine`: plain `W` has shape `[dimIn, dimOut]`,
transposed `W` has shape `[dimOut, dimIn]`. -/
def weightAt (W : TExpr) (transB : Bool) (dimIn dimOut i j : Nat) : ℚ :=
  if transB then W.data.getD (j * dimIn + i) 0 else W.data.getD (i * dimOut + j) 0

/-- Modelled from the spec: `marian::dot(x, W, transA=false, transB)`,
the matrix product over the last axis; the result's last dimension comes
from `W` and the result keeps `x`'s element type. -/
def dotOp (x W : TExpr) (transB : Bool) : TExpr :=
  let dimIn := shapeDim x.shape (-1)
  let dimOut := if transB then shapeDim W.shape (-2) else shapeDim W.shape (-1)
  { dtype := x.dtype,
    shape := x.shape.dropLast ++ [dimOut],
    data :=
      (listChunks dimIn x.data).flatMap (fun row =>
        (List.range dimOut).map (fun j =>
          (List.range dimIn).foldl
            (fun acc i => acc + row.getD i 0 * weightAt W transB dimIn dimOut i j) 0)) }

/-- Modelled from the spec: `marian::affine(x, W, b, transA=false,
transB)` computes `dot(x, W, transB)` and adds the bias vector `b`
broadcast over the rows. -/
def affineOp (x W b : TExpr) (transB : Bool) : TExpr :=
  let y := dotOp x W transB
  let k := shapeDim y.shape (-1)
  { y with data := y.data.enum.map (fun p => p.2 + b.data.getD (p.1 % k) 0) }

/-- Modelled from the spec: `marian::dropout(x, p, maskShape)` zeroes
each element independently with probability `p` and scales survivors by
`1/(1-p)`; the Bernoulli draws are an explicit stream `rand`, and the
mask of shape `maskShape` is broadcast over the data by tiling. -/
def dropoutOp (x : TExpr) (p : ℚ) (maskShape : List Nat) (rand : Nat → ℚ) : TExpr :=
  let msize := maskShape.prod
  let mask := (List.range msize).map (fun i => if rand i < p then 0 else 1 / (1 - p))
  { x with data := x.data.enum.map (fun q => q.2 * mask.getD (q.1 % msize) 0) }

/-- Modelled from the spec: `marian::dropoutReluInplace(x, p, maskShape)`
applies ReLU and then dropout (drops are scaled by `1/(1-p)`
post-ReLU). -/
def dropoutReluOp (x : TExpr) (p : ℚ) (maskShape : List Nat) (rand : Nat → ℚ) : TExpr :=
  dropoutOp (reluOp x) p maskShape rand

/-- `inits::zeros()`: initializer producing all-zero data of the
parameter's shape. -/
def zerosInit (shape : List Nat) : List ℚ :=
  List.replicate shape.prod 0

/-- `registerParameterLazy(slot, shape, init)`: if the slot is unbound,
create the parameter of the required shape with the initializer (at the
graph's default element type); if already bound, return it unchanged. -/
def registerParameterLazy (slot : Option TExpr) (shape : List Nat) (t : Ty)
    (init : List Nat → List ℚ) : TExpr :=
  match slot with
  | some p => p
  | none => { dtype := t, shape := shape, data := init shape }

/-- The `Linear` layer of `layers_new/neuralnet.h`: configuration plus
the lazily bound `weight` / `bias` slots.  `paramType` is the graph's
default element type used when materialising parameters; `init` models
the stored `NodeInitializer` (shape to data). -/
structure Linear where
  weight : Option TExpr := none
  bias : Option TExpr := none
  dimOut : Nat
  useBias : Bool := true
  transposed : Bool := false
  init : List Nat → List ℚ
  paramType : Ty

/-- The weight bound by `Linear::apply` (and by
`LinearReluDropout::apply`, which duplicates the same lines): shape
`(dimOut, dimIn)` if transposed, else `(dimIn, dimOut)`. -/
def Linear.registerWeight (self : Linear) (dimIn : Nat) : TExpr :=
  if self.transposed then
    registerParameterLazy self.weight [self.dimOut, dimIn] self.paramType self.init
  else
    registerParameterLazy self.weight [dimIn, self.dimOut] self.paramType self.init

/-- The bias bound by `Linear::apply` when `useBias` is set: shape
`(dimOut,)`, zero-initialized. -/
def Linear.registerBias (self : Linear) : TExpr :=
  registerParameterLazy self.bias [self.dimOut] self.paramType zerosInit

/-- `Linear::apply(x)`: bind the parameters lazily, cast weight (and
bias) to the input's element type, and compute the affine / dot product.
Returns the output together with the layer state after binding. -/
def Linear.apply (self : Linear) (x : TExpr) : TExpr × Linear :=
  let dimIn := shapeDim x.shape (-1)
  let weight := self.registerWeight dimIn
  let outputType := x.dtype
  if self.useBias then
    let b := self.registerBias
    (affineOp x (castExpr weight outputType) (castExpr b outputType) self.transposed,
     { self with weight := some weight, bias := some b })
  else
    (dotOp x (castExpr weight outputType) self.transposed,
     { self with weight := some weight })

/-- The `Dropout` layer: probability and optional fixed mask shape. -/
structure Dropout where
  dropoutProbabilty : ℚ
  dropoutMaskShape : Option (List Nat) := none

/-- `Dropout::apply(input)`: identity in eval mode; in train mode,
dropout with the fixed mask shape if one is configured and the
probability is positive, dropout with the trailing-two-dims mask shape
if only the probability is positive, identity otherwise. -/
def Dropout.apply (self : Dropout) (mode : Mode) (rand : Nat → ℚ) (input : TExpr) : TExpr :=
  if mode = Mode.eval then
    input
  else
    match self.dropoutMaskShape with
    | some ms =>
      if self.dropoutProbabilty > 0 then
        dropoutOp input self.dropoutProbabilty ms rand
      else
        input
    | none =>
      if self.dropoutProbabilty > 0 then
        dropoutOp input self.dropoutProbabilty
          [shapeDim input.shape (-2), shapeDim input.shape (-1)] rand
      else
        input

/-- The fused `LinearReluDropout` layer: `Linear`'s configuration and
slots plus dropout probability and optional fixed mask shape. -/
structure LinearReluDropout extends Linear where
  dropoutProbabilty : ℚ
  dropoutMaskShape : Option (List Nat) := none

/-- The affine part of `LinearReluDropout::apply`: same lazy parameter
binding as `Linear::apply`, but the weight and bias are used at their
stored precision (no cast to the input's element type). -/
def LinearReluDropout.preActivation (self : LinearReluDropout) (x : TExpr) : TExpr :=
  let dimIn := shapeDim x.shape (-1)
  let weight := self.toLinear.registerWeight dimIn
  if self.useBias then
    affineOp x weight self.toLinear.registerBias self.transposed
  else
    dotOp x weight self.transposed

/-- `LinearReluDropout::apply(x)`: bind parameters, compute the affine
part, then branch on the mode: eval applies ReLU only; train applies the
fused dropout+ReLU when the probability is positive (fixed mask shape if
configured, else the output's trailing two dimensions), plain ReLU
otherwise.  Returns the output with the layer state after binding. -/
def LinearReluDropout.apply (self : LinearReluDropout) (mode : Mode) (rand : Nat → ℚ)
    (x : TExpr) : TExpr × LinearReluDropout :=
  let dimIn := shapeDim x.shape (-1)
  let weight := self.toLinear.registerWeight dimIn
  let self2 : LinearReluDropout :=
    if self.useBias then
      { self with weight := some weight, bias := some self.toLinear.registerBias }
    else
      { self with weight := some weight }
  let output := self.preActivation x
  let result :=
    if mode = Mode.eval then
      reluOp output
    else
      match self.dropoutMaskShape with
      | some ms =>
        if self.dropoutProbabilty > 0 then
          dropoutReluOp output self.dropoutProbabilty ms rand
        else
          reluOp output
      | none =>
        if self.dropoutProbabilty > 0 then
          dropoutReluOp output self.dropoutProbabilty
            [shapeDim output.shape (-2), shapeDim output.shape (-1)] rand
        else
          reluOp output
  (result, self2)

/-- The slice of `marian::Options` that the `Embed` constructor reads
and writes (other keys pass through unchanged and are not modelled). -/
structure Options where
  inference : Bool
  shuffle : String
  computeSimilarity : Bool
  vocabs : List String
  dimVocabs : List Nat
  inputTypes : List String
deriving DecidableEq

/-- The option rewriting done by the `Embed` constructor before the
corpus and the replicas are built: force `inference` and disable
shuffling, and, when `compute-similarity` is set, duplicate the last
vocabulary and vocabulary dimension and set every input type to
`sequence`.  `vector::back()` on an empty vector is undefined in C++;
the model returns a default there. -/
def Embed.prepareOptions (options : Options) : Options :=
  let options2 :=
    { options with inference := true, shuffle := "none" }
  if options.computeSimilarity then
    let vVocabs := options2.vocabs ++ [options2.vocabs.getLastD ""]
    let vDimVocabs := options2.dimVocabs ++ [options2.dimVocabs.getLastD 0]
    { options2 with
      vocabs := vVocabs,
      dimVocabs := vDimVocabs,
      inputTypes := List.replicate vVocabs.length "sequence" }
  else
    options2

/-- Exact widening of a stored 16-bit value to 32 bits
(`sentVectors.push_back(v)` for `float16 v`); binary16 values are all
representable in binary32, so the value is unchanged. -/
def halfToFloat (v : ℚ) : ℚ := v

/-- The precision dispatch of the extraction step in `Embed::run`:
32-bit output is copied directly, 16-bit output is copied into a 16-bit
buffer and widened element by element, any other element type aborts
with a diagnostic naming the type. -/
def extractSentVectors (embeddings : TExpr) : Except String (List ℚ) :=
  if embeddings.dtype = Ty.float32 then
    Except.ok embeddings.data
  else if embeddings.dtype = Ty.float16 then
    let sentVectors16 := embeddings.data
    Except.ok (sentVectors16.map halfToFloat)
  else
    Except.error ("Unknown embedding type " ++ tyName embeddings.dtype)

/-- A batch task as dispatched by `Embed::run`: the global task index
(`batchId`) and the identity of the worker thread that executes it. -/
structure SchedTask where
  idx : Nat
  thread : Nat
deriving DecidableEq

/-- One executed task: its index, its thread, and the replica (graph /
model pair) it actually used. -/
structure RunEntry where
  idx : Nat
  thread : Nat
  replica : Nat
deriving DecidableEq

/-- The replica-assignment logic of `Embed::run`: each worker thread
keeps a `thread_local` cached replica; a task whose thread has no cached
replica picks replica `idx % n` (with `n` the replica count) and caches
it, and a task whose thread already has one reuses the cached replica.
The cache is an association list from thread to replica index. -/
def runTasks (n : Nat) (cache : List (Nat × Nat)) : List SchedTask → List RunEntry
  | [] => []
  | t :: rest =>
    match cache.lookup t.thread with
    | some r =>
      { idx := t.idx, thread := t.thread, replica := r } :: runTasks n cache rest
    | none =>
      { idx := t.idx, thread := t.thread, replica := t.idx % n } ::
        runTasks n ((t.thread, t.idx % n) :: cache) rest

/-- Every element of `repeatBlocksAux` output occurs in the input list. -/
lemma mem_repeatBlocksAux {s h : Nat} {y : ℚ} :
    ∀ {fuel : Nat} {l : List ℚ}, y ∈ repeatBlocksAux s h fuel l → y ∈ l := by
  intro fuel
  induction fuel with
  | zero =>
    intro l hy
    simp [repeatBlocksAux] at hy
  | succ n ih =>
    intro l hy
    cases l with
    | nil => simp [repeatBlocksAux] at hy
    | cons a l =>
      simp only [repeatBlocksAux, List.mem_append] at hy
      rcases hy with hy | hy
      · rcases List.mem_flatten.mp hy with ⟨c, hc, hyc⟩
        rcases List.eq_of_mem_replicate hc with rfl
        rcases List.mem_cons.mp hyc with rfl | hyt
        · exact List.mem_cons_self _ _
        · exact List.mem_cons_of_mem _ (List.mem_of_mem_take hyt)
      · exact List.mem_cons_of_mem _ (List.mem_of_mem_drop (ih hy))

/-- Every element of `repeatBlocks` output occurs in the input list. -/
lemma mem_repeatBlocks {s h : Nat} {l : List ℚ} {y : ℚ}
    (hy : y ∈ repeatBlocks s h l) : y ∈ l :=
  mem_repeatBlocksAux hy

/-- The binary32 `maskFactor` is exactly `-1.0e8`. -/
lemma maskFactorVal_float32 : maskFactorVal Ty.float32 = -100000000 := by
  have h : ((-(2 ^ 128 - 2 ^ 104) : ℚ) / 2) ≤ (-100000000 : ℚ) := by norm_num
  simpa [maskFactorVal, lowestVal] using max_eq_right h

/-- C1: for every non-null multiplicative mask and head count, the mask
transform returns a non-null result whose data is `(1 - mask) *
maskFactor` (replicated over the heads), with `maskFactor =
max(lowest/2, -1e8)` for the mask's element type; in particular a masked
position (mask value 0) turns into exactly `-1e8` when the element type
is binary32. -/
theorem transposedLogMask_formula (m : TExpr) (dimHeads : Nat) :
    ∃ r, transposedLogMask (some m) dimHeads = some r ∧
      maskFactorVal m.dtype = max (lowestVal m.dtype / 2) (-100000000) ∧
      r.data = repeatBlocks (shapeDim m.shape (-2)) dimHeads
        (m.data.map (fun v => (1 - v) * maskFactorVal m.dtype)) ∧
      (∀ y ∈ r.data, ∃ v ∈ m.data, y = (1 - v) * maskFactorVal m.dtype) ∧
      (∀ v ∈ m.data, v = 0 → m.dtype = Ty.float32 →
        (1 - v) * maskFactorVal m.dtype = -100000000) := by
  refine ⟨_, rfl, rfl, rfl, ?_, ?_⟩
  · intro y hy
    obtain ⟨v, hv, hvy⟩ := List.mem_map.mp (mem_repeatBlocks hy)
    exact ⟨v, hv, hvy.symm⟩
  · intro v hv h0 hty
    rw [h0, hty, maskFactorVal_float32]
    norm_num

/-- Concrete binary32 mask (batch 1, two source positions, one masked)
used to instantiate the mask-transform theorems. -/
def cMask : TExpr :=
  { dtype := Ty.float32, shape := [1, 2, 1], data := [0, 1] }

/-- Witness for C1: instantiating the mask transform at a concrete
binary32 mask with a masked position yields `-1e8` there. -/
theorem transposedLogMask_formula_witness :
    (∃ r, transposedLogMask (some cMask) 2 = some r) ∧
      (1 - 0) * maskFactorVal cMask.dtype = -100000000 := by
  obtain ⟨r, hr, _, _, _, hmask⟩ := transposedLogMask_formula cMask 2
  exact ⟨⟨r, hr⟩, hmask 0 (by decide) rfl rfl⟩

/-- C9: a null mask passes through the mask transform as null, and every
non-null mask yields a non-null log-mask. -/
theorem transposedLogMask_nullness (dimHeads : Nat) :
    transposedLogMask none dimHeads = none ∧
      ∀ m : TExpr, (transposedLogMask (some m) dimHeads).isSome = true :=
  ⟨rfl, fun _ => rfl⟩

/-- C3: `Dropout::apply` is the identity in eval mode, and with
probability 0 it is the identity in every mode and for every configured
mask shape. -/
theorem dropout_apply_identity (d : Dropout) (mode : Mode) (rand : Nat → ℚ) (x : TExpr) :
    Dropout.apply d Mode.eval rand x = x ∧
      (d.dropoutProbabilty = 0 → Dropout.apply d mode rand x = x) := by
  constructor
  · simp [Dropout.apply]
  · intro h0
    cases mode <;> cases hms : d.dropoutMaskShape <;> simp [Dropout.apply, hms, h0]

/-- Concrete input tensor used to instantiate layer theorems. -/
def cInput : TExpr :=
  { dtype := Ty.float32, shape := [2, 2], data := [1, 2, 3, 4] }

/-- Witness for C3: a dropout layer with probability 0 and a fixed mask
shape is the identity in train mode on a concrete input. -/
theorem dropout_apply_identity_witness :
    Dropout.apply { dropoutProbabilty := 0, dropoutMaskShape := some [2, 2] }
      Mode.train (fun _ => 1 / 2) cInput = cInput :=
  (dropout_apply_identity _ Mode.train _ cInput).2 rfl

/-- C2: a fused `LinearReluDropout` layer sharing `dimOut`, `useBias`,
`transposed` and initializer with a plain `Linear` layer computes, in
eval mode, exactly `relu` of the `Linear` output (in the
exact-arithmetic model, where casting to the input's element precision
changes only the precision tag). -/
theorem linearReluDropout_eval_refines_linear (lin : Linear) (p : ℚ)
    (ms : Option (List Nat)) (rand : Nat → ℚ) (x : TExpr) :
    (LinearReluDropout.apply
        { toLinear := lin, dropoutProbabilty := p, dropoutMaskShape := ms }
        Mode.eval rand x).1
      = reluOp (Linear.apply lin x).1 := by
  cases hub : lin.useBias <;>
    simp [LinearReluDropout.apply, LinearReluDropout.preActivation, Linear.apply,
      castExpr, affineOp, dotOp, weightAt, hub]

/-- C4: after the affine part, `LinearReluDropout::apply` branches on
the mode: eval always gets plain ReLU; train with positive probability
gets the fused dropout+ReLU with the configured mask shape if present,
else with the output's trailing two dimensions; train with probability 0
gets plain ReLU. -/
theorem linearReluDropout_apply_branches (self : LinearReluDropout) (mode : Mode)
    (rand : Nat → ℚ) (x : TExpr) :
    (mode = Mode.eval →
      (self.apply mode rand x).1 = reluOp (self.preActivation x)) ∧
    (mode = Mode.train → self.dropoutProbabilty > 0 →
      ∀ ms, self.dropoutMaskShape = some ms →
        (self.apply mode rand x).1
          = dropoutReluOp (self.preActivation x) self.dropoutProbabilty ms rand) ∧
    (mode = Mode.train → self.dropoutProbabilty > 0 → self.dropoutMaskShape = none →
      (self.apply mode rand x).1
        = dropoutReluOp (self.preActivation x) self.dropoutProbabilty
            [shapeDim (self.preActivation x).shape (-2),
             shapeDim (self.preActivation x).shape (-1)] rand) ∧
    (mode = Mode.train → self.dropoutProbabilty = 0 →
      (self.apply mode rand x).1 = reluOp (self.preActivation x)) := by
  refine ⟨?_, ?_, ?_, ?_⟩
  · intro hm
    subst hm
    simp [LinearReluDropout.apply]
  · intro hm hp ms hms
    subst hm
    simp [LinearReluDropout.apply, hms, hp]
  · intro hm hp hms
    subst hm
    simp [LinearReluDropout.apply, hms, hp]
  · intro hm hp
    subst hm
    cases hms : self.dropoutMaskShape <;> simp [LinearReluDropout.apply, hms, hp]

/-- Concrete fused layer (probability 1/2, no fixed mask shape) used to
instantiate the branch theorem. -/
def cFused : LinearReluDropout :=
  { dimOut := 1, init := zerosInit, paramType := Ty.float32, dropoutProbabilty := 1 / 2 }

/-- Concrete Bernoulli stream used to instantiate dropout theorems. -/
def cRand : Nat → ℚ := fun i => if i % 2 = 0 then 1 / 4 else 3 / 4

/-- Witness for C4: the train-mode, positive-probability, derived-mask
branch at a concrete fused layer and input. -/
theorem linearReluDropout_apply_branches_witness :
    (cFused.apply Mode.train cRand cInput).1
      = dropoutReluOp (cFused.preActivation cInput) cFused.dropoutProbabilty
          [shapeDim (cFused.preActivation cInput).shape (-2),
           shapeDim (cFused.preActivation cInput).shape (-1)] cRand :=
  (linearReluDropout_apply_branches cFused Mode.train cRand cInput).2.2.1 rfl
    (by norm_num [cFused]) rfl

/-- `shape()[-1]` of a shape written as `s ++ [d]` is `d`. -/
lemma shapeDim_append_singleton (s : List Nat) (d : Nat) :
    shapeDim (s ++ [d]) (-1) = d := by
  simp [shapeDim, List.getD]

/-- `shape()[-1]` of a two-dimensional shape. -/
lemma shapeDim_pair_last (a b : Nat) : shapeDim [a, b] (-1) = b := rfl

/-- `shape()[-2]` of a two-dimensional shape. -/
lemma shapeDim_pair_first (a b : Nat) : shapeDim [a, b] (-2) = a := rfl

/-- C5: on a fresh `Linear` layer with `dimOut = k` and an input of
shape `(..., d)`, `apply` binds a weight of shape `(d, k)` (`(k, d)` if
transposed) built by the initializer, binds — when bias is enabled — a
zero bias of shape `(k,)`, and returns an output whose shape is the
input shape with the last dimension replaced by `k`. -/
theorem linear_apply_binds (lin : Linear) (x : TExpr) (s : List Nat) (d : Nat)
    (hshape : x.shape = s ++ [d])
    (hw : lin.weight = none) (hb : lin.bias = none) :
    ((Linear.apply lin x).2.weight
        = some { dtype := lin.paramType,
                 shape := if lin.transposed then [lin.dimOut, d] else [d, lin.dimOut],
                 data := lin.init
                   (if lin.transposed then [lin.dimOut, d] else [d, lin.dimOut]) }) ∧
    (lin.useBias = true →
      (Linear.apply lin x).2.bias
        = some { dtype := lin.paramType, shape := [lin.dimOut],
                 data := List.replicate lin.dimOut 0 }) ∧
    (Linear.apply lin x).1.shape = s ++ [lin.dimOut] := by
  refine ⟨?_, ?_, ?_⟩
  · cases hub : lin.useBias <;> cases htr : lin.transposed <;>
      simp [Linear.apply, Linear.registerWeight, registerParameterLazy, hw, hub, htr,
        hshape, shapeDim_append_singleton]
  · intro hub
    cases htr : lin.transposed <;>
      simp [Linear.apply, Linear.registerBias, registerParameterLazy, hb, hub, htr,
        zerosInit]
  · cases hub : lin.useBias <;> cases htr : lin.transposed <;>
      simp [Linear.apply, Linear.registerWeight, registerParameterLazy, hw, hub, htr,
        hshape, shapeDim_append_singleton, affineOp, dotOp, castExpr,
        shapeDim_pair_last, shapeDim_pair_first]

/-- Concrete fresh `Linear` layer (`dimOut = 2`, all-ones initializer)
used to instantiate the binding theorem. -/
def cLin : Linear :=
  { dimOut := 2, init := fun sh => List.replicate sh.prod 1, paramType := Ty.float32 }

/-- Witness for C5: applying the concrete fresh layer to a `[2, 2]`
input binds a `[2, 2]` all-ones weight, a zero bias of shape `[2]`, and
produces a `[2, 2]` output. -/
theorem linear_apply_binds_witness :
    ((Linear.apply cLin cInput).2.weight
        = some { dtype := Ty.float32, shape := [2, 2], data := [1, 1, 1, 1] }) ∧
    ((Linear.apply cLin cInput).2.bias
        = some { dtype := Ty.float32, shape := [2], data := [0, 0] }) ∧
    (Linear.apply cLin cInput).1.shape = [2, 2] := by
  obtain ⟨h1, h2, h3⟩ := linear_apply_binds cLin cInput [2] 2 rfl rfl rfl
  exact ⟨h1.trans (by decide), (h2 rfl).trans (by decide), h3.trans (by decide)⟩

/-- C6: extraction dispatches on the output element precision: binary32
data is taken directly, binary16 data is widened element by element, and
any other precision is a fatal error whose diagnostic names the type. -/
theorem extractSentVectors_precision (e : TExpr) :
    (e.dtype = Ty.float32 → extractSentVectors e = Except.ok e.data) ∧
    (e.dtype = Ty.float16 →
      extractSentVectors e = Except.ok (e.data.map halfToFloat)) ∧
    (e.dtype ≠ Ty.float32 → e.dtype ≠ Ty.float16 →
      extractSentVectors e
        = Except.error ("Unknown embedding type " ++ tyName e.dtype)) := by
  refine ⟨?_, ?_, ?_⟩
  · intro h32
    simp [extractSentVectors, h32]
  · intro h16
    simp [extractSentVectors, h16]
  · intro h32 h16
    simp [extractSentVectors, h32, h16]

/-- Concrete binary32 output tensor. -/
def cEmb32 : TExpr := { dtype := Ty.float32, shape := [1, 2], data := [1 / 2, 3] }

/-- Concrete binary16 output tensor. -/
def cEmb16 : TExpr := { dtype := Ty.float16, shape := [1, 2], data := [1 / 4, 2] }

/-- Concrete output tensor of an unsupported precision. -/
def cEmb64 : TExpr := { dtype := Ty.float64, shape := [1, 2], data := [1, 2] }

/-- Witness for C6: all three extraction paths at concrete tensors. -/
theorem extractSentVectors_precision_witness :
    extractSentVectors cEmb32 = Except.ok cEmb32.data ∧
    extractSentVectors cEmb16 = Except.ok (cEmb16.data.map halfToFloat) ∧
    extractSentVectors cEmb64
      = Except.error ("Unknown embedding type " ++ tyName cEmb64.dtype) :=
  ⟨(extractSentVectors_precision cEmb32).1 rfl,
   (extractSentVectors_precision cEmb16).2.1 rfl,
   (extractSentVectors_precision cEmb64).2.2 (by decide) (by decide)⟩

/-- C7: with the compute-similarity flag set, the `Embed` constructor
duplicates the last vocabulary and the last vocabulary dimension and
sets every input type to `sequence` (one per vocabulary); with the flag
unset, all three options are left unchanged. -/
theorem embed_prepareOptions_similarity (o : Options) :
    (o.computeSimilarity = true →
      (Embed.prepareOptions o).vocabs = o.vocabs ++ [o.vocabs.getLastD ""] ∧
      (Embed.prepareOptions o).dimVocabs = o.dimVocabs ++ [o.dimVocabs.getLastD 0] ∧
      (Embed.prepareOptions o).inputTypes
        = List.replicate (o.vocabs.length + 1) "sequence") ∧
    (o.computeSimilarity = false →
      (Embed.prepareOptions o).vocabs = o.vocabs ∧
      (Embed.prepareOptions o).dimVocabs = o.dimVocabs ∧
      (Embed.prepareOptions o).inputTypes = o.inputTypes) := by
  constructor <;> intro h <;> simp [Embed.prepareOptions, h]

/-- Concrete options record with the compute-similarity flag set. -/
def cOpts : Options :=
  { inference := false, shuffle := "data", computeSimilarity := true,
    vocabs := ["a.spm", "b.spm"], dimVocabs := [100, 200], inputTypes := ["class"] }

/-- Witness for C7: the similarity branch at a concrete two-vocabulary
configuration. -/
theorem embed_prepareOptions_similarity_witness :
    (Embed.prepareOptions cOpts).vocabs = ["a.spm", "b.spm", "b.spm"] ∧
    (Embed.prepareOptions cOpts).dimVocabs = [100, 200, 200] ∧
    (Embed.prepareOptions cOpts).inputTypes = ["sequence", "sequence", "sequence"] := by
  obtain ⟨h1, h2, h3⟩ := (embed_prepareOptions_similarity cOpts).1 rfl
  exact ⟨h1.trans (by decide), h2.trans (by decide), h3.trans (by decide)⟩

/-- C10: the `Embed` constructor forces inference mode and disables
shuffling whatever the caller configured, with or without the
compute-similarity flag. -/
theorem embed_prepareOptions_forces_inference (o : Options) :
    (Embed.prepareOptions o).inference = true ∧
      (Embed.prepareOptions o).shuffle = "none" := by
  by_cases h : o.computeSimilarity <;> simp [Embed.prepareOptions, h]

/-- If the worker thread `th` already has a cached replica `r`, every
task it executes uses `r`. -/
lemma runTasks_cached (n th r : Nat) :
    ∀ (tasks : List SchedTask) (cache : List (Nat × Nat)),
      List.lookup th cache = some r →
      ∀ e ∈ runTasks n cache tasks, e.thread = th → e.replica = r := by
  intro tasks
  induction tasks with
  | nil =>
    intro cache hc e he
    simp [runTasks] at he
  | cons t rest ih =>
    intro cache hc e he hth
    simp only [runTasks] at he
    split at he
    · rename_i r2 hl
      rcases List.mem_cons.mp he with rfl | he2
      · dsimp only at hth ⊢
        rw [hth] at hl
        rw [hc] at hl
        exact (Option.some.inj hl).symm
      · exact ih cache hc e he2 hth
    · rename_i hl
      rcases List.mem_cons.mp he with rfl | he2
      · dsimp only at hth
        rw [hth, hc] at hl
        cases hl
      · have hne : th ≠ t.thread := by
          intro hEq
          rw [← hEq, hc] at hl
          cases hl
        have hc2 : List.lookup th ((t.thread, t.idx % n) :: cache) = some r := by
          simpa [List.lookup, beq_eq_false_iff_ne.mpr hne] using hc
        exact ih ((t.thread, t.idx % n) :: cache) hc2 e he2 hth

/-- If the worker thread `th` has no cached replica yet, every task it
executes uses replica `i0 % n`, where `i0` is the index of the first of
the remaining tasks that runs on `th`. -/
lemma runTasks_uncached (n th : Nat) :
    ∀ (tasks : List SchedTask) (cache : List (Nat × Nat)),
      List.lookup th cache = none →
      ∀ e ∈ runTasks n cache tasks, e.thread = th →
        ∃ t0, tasks.find? (fun tk => tk.thread == th) = some t0 ∧
          e.replica = t0.idx % n := by
  intro tasks
  induction tasks with
  | nil =>
    intro cache hc e he
    simp [runTasks] at he
  | cons t rest ih =>
    intro cache hc e he hth
    simp only [runTasks] at he
    split at he
    · rename_i r2 hl
      have hne : t.thread ≠ th := by
        intro hEq
        rw [hEq, hc] at hl
        cases hl
      rcases List.mem_cons.mp he with rfl | he2
      · exact absurd hth hne
      · have hfind : (t :: rest).find? (fun tk => tk.thread == th)
            = rest.find? (fun tk => tk.thread == th) := by
          simp [List.find?, beq_eq_false_iff_ne.mpr hne]
        rw [hfind]
        exact ih cache hc e he2 hth
    · rename_i hl
      rcases List.mem_cons.mp he with rfl | he2
      · refine ⟨t, ?_, rfl⟩
        dsimp only at hth
        simp [List.find?, beq_iff_eq.mpr hth]
      · by_cases hEq : t.thread = th
        · refine ⟨t, ?_, ?_⟩
          · simp [List.find?, beq_iff_eq.mpr hEq]
          · have hc2 : List.lookup th ((t.thread, t.idx % n) :: cache)
                = some (t.idx % n) := by
              simp [List.lookup, beq_iff_eq.mpr hEq.symm]
            exact runTasks_cached n th (t.idx % n) rest _ hc2 e he2 hth
        · have hc2 : List.lookup th ((t.thread, t.idx % n) :: cache) = none := by
            simpa [List.lookup, beq_eq_false_iff_ne.mpr (fun h => hEq h.symm)] using hc
          have hfind : (t :: rest).find? (fun tk => tk.thread == th)
              = rest.find? (fun tk => tk.thread == th) := by
            simp [List.find?, beq_eq_false_iff_ne.mpr hEq]
          rw [hfind]
          exact ih ((t.thread, t.idx % n) :: cache) hc2 e he2 hth

/-- C8 counterexample: with 2 replicas and two tasks (indices 0 and 1)
executed by the same worker thread, task 1 uses the thread's cached
replica 0, not `1 mod 2 = 1`; so not every task uses the replica at its
own index modulo the replica count. -/
theorem runTasks_not_index_mod_counterexample :
    ¬ ∀ e ∈ runTasks 2 []
        [{ idx := 0, thread := 0 }, { idx := 1, thread := 0 }],
        e.replica = e.idx % 2 := by
  decide

/-- C8 (amended): each executed task uses the replica `i0 % n` where
`i0` is the index of the first task dispatched to its worker thread; in
particular a worker thread reuses one replica across all of its tasks,
and a task's replica equals its own index modulo the replica count
exactly when it is the first task of its thread. -/
theorem runTasks_thread_affinity (n : Nat) (tasks : List SchedTask) (e : RunEntry)
    (he : e ∈ runTasks n [] tasks) :
    (∃ t0, tasks.find? (fun tk => tk.thread == e.thread) = some t0 ∧
        e.replica = t0.idx % n) ∧
    ∀ e2 ∈ runTasks n [] tasks, e2.thread = e.thread → e2.replica = e.replica := by
  obtain ⟨t0, hf, hr⟩ := runTasks_uncached n e.thread tasks [] rfl e he rfl
  refine ⟨⟨t0, hf, hr⟩, ?_⟩
  intro e2 he2 hth
  obtain ⟨t1, hf1, hr1⟩ := runTasks_uncached n e.thread tasks [] rfl e2 he2 hth
  rw [hf] at hf1
  rw [hr1, hr, Option.some.inj hf1]

/-- Witness for the amended C8: in a concrete three-task schedule the
entry for task 1 (second task of thread 0) uses the replica picked by
thread 0's first task, index 0, so replica `0 % 2`. -/
theorem runTasks_thread_affinity_witness :
    ∃ t0, List.find? (fun tk : SchedTask => tk.thread == 0)
        ([{ idx := 0, thread := 0 }, { idx := 1, thread := 0 },
          { idx := 2, thread := 1 }] : List SchedTask) = some t0 ∧
      (0 : Nat) = t0.idx % 2 := by
  have h := runTasks_thread_affinity 2
    [{ idx := 0, thread := 0 }, { idx := 1, thread := 0 }, { idx := 2, thread := 1 }]
    { idx := 1, thread := 0, replica := 0 } (by decide)
  exact h.1
